import Mathlib

/-!
Verification of ppSearch.py (Dart object-pool usage search for Flutter
libapp.so): the operand decomposition in `main` (lines 127-142), the adjacent
line pattern scan in `search_patterns` (lines 90-109), and the dependency
install fallback in `import_library` (lines 51-71).

Strings are modelled as lists of characters; Python slicing, `lstrip`,
`startswith` and membership tests are embedded with their exact Python
semantics.
-/

namespace PpSearch

/-- Resolution of one Python slice index for `s[a:b]` on a sequence of length
`n`: a negative index counts from the end and is clamped below at 0, a
nonnegative index is clamped above at `n`. -/
def pySliceIdx (n : Nat) (i : Int) : Nat :=
  if i < 0 then (i + n).toNat else min i.toNat n

/-- Python `s[a:b]` on a string viewed as its list of characters. -/
def pySlice (s : List Char) (a b : Int) : List Char :=
  (s.take (pySliceIdx s.length b)).drop (pySliceIdx s.length a)

/-- Python `s[a:]` on a string viewed as its list of characters. -/
def pySliceFrom (s : List Char) (a : Int) : List Char :=
  s.drop (pySliceIdx s.length a)

/-- The set `values = {"a", "b", "c", "d", "e", "f"}` of ppSearch.py line 129,
as a list of one-character strings. -/
def values : List (List Char) := [['a'], ['b'], ['c'], ['d'], ['e'], ['f']]

/-- Embedding of `first_target.lstrip("0x")` (ppSearch.py line 131): Python
`lstrip` removes every leading character that belongs to the character set
`\x7b'0', 'x'\x7d`, not merely a literal `"0x"` prefix. -/
def lstrip0x (s : List Char) : List Char :=
  s.dropWhile (fun c => c == '0' || c == 'x')

/-- Computation of `first_target` (the shift operand), ppSearch.py lines
127-135: slice off the last three characters, `lstrip("0x")`, drop one more
leading `'0'` if present, and if a single character remains that is not one of
`a`-`f`, replace `first_target` by it. -/
def computeFirstTarget (hex_value : List Char) : List Char :=
  let first_target := pySlice hex_value 0 (-3)
  let check_first := lstrip0x first_target
  let check_first := if check_first.head? = some '0' then check_first.drop 1 else check_first
  if check_first.length = 1 ∧ check_first ∉ values then check_first else first_target

/-- Variant of `computeFirstTarget` with ppSearch.py line 132 (the
conditional drop of one further leading `'0'`) removed. -/
def computeFirstTargetNoDrop (hex_value : List Char) : List Char :=
  let first_target := pySlice hex_value 0 (-3)
  let check_first := lstrip0x first_target
  if check_first.length = 1 ∧ check_first ∉ values then check_first else first_target

/-- Computation of `second_target` (the offset operand), ppSearch.py lines
137-142. -/
def computeSecondTarget (hex_value : List Char) : List Char :=
  if pySlice hex_value (-3) (-1) = ['0', '0'] then
    pySliceFrom hex_value (-1)
  else if pySlice hex_value (-3) (-2) = ['0'] then
    ['0', 'x'] ++ pySliceFrom hex_value (-2)
  else
    ['0', 'x'] ++ pySliceFrom hex_value (-3)

/-- The operand decomposition performed by `main` (ppSearch.py lines 127-142):
the pair `(first_target, second_target)`. -/
def decomposeOperands (hex_value : List Char) : List Char × List Char :=
  (computeFirstTarget hex_value, computeSecondTarget hex_value)

/-- A lowercase hexadecimal digit: a decimal digit or one of `a`-`f`. -/
def isHexDigitChar (c : Char) : Bool :=
  c.isDigit || c == 'a' || c == 'b' || c == 'c' || c == 'd' || c == 'e' || c == 'f'

/-- Strings of the form `0x` followed by (lowercase) hex digits. -/
def isHexLiteral (H : List Char) : Bool :=
  H.take 2 == ['0', 'x'] && (H.drop 2).all isHexDigitChar

/-- Embedding of `search_patterns` (ppSearch.py lines 90-109): iterate `i`
over `range(len(output) - 1)` and append the pair
`(output[i], output[i+1])` whenever `pattern1` matches line `i` and
`pattern2` matches line `i + 1`. The two compiled regular expressions are
abstracted as boolean predicates on lines. -/
def search_patterns (output : List String) (pattern1 pattern2 : String → Bool) :
    List (String × String) :=
  (List.range (output.length - 1)).foldl
    (fun acc i =>
      if pattern1 (output.getD i "") && pattern2 (output.getD (i + 1) "") then
        acc ++ [(output.getD i "", output.getD (i + 1) "")]
      else acc)
    []

/-- Result object of a completed subprocess, keeping only the field
ppSearch.py reads. -/
structure CompletedProcess where
  returncode : Int
deriving DecidableEq

/-- Modelled from the Python standard library semantics of
`subprocess.run([sys.executable, "-m", "pip", "install", package_name],
check=True)` (ppSearch.py lines 64-66): with `check=True`, a nonzero exit
code raises `CalledProcessError` (here the error carries the exit code);
otherwise the `CompletedProcess` is returned. -/
def runPipInstallCheckTrue (returncode : Int) : Except Int CompletedProcess :=
  if returncode ≠ 0 then Except.error returncode else Except.ok ⟨returncode⟩

/-- Possible outcomes of the `except ImportError` branch of
`import_library` (ppSearch.py lines 63-71). -/
inductive InstallOutcome where
  | imported : InstallOutcome
  | calledProcessError : Int → InstallOutcome
  | assertionError : Int → InstallOutcome
deriving DecidableEq

/-- Embedding of the `except ImportError` branch of `import_library`
(ppSearch.py lines 63-71) as a function of the pip process exit code: run
pip with `check=True`; if the returned object has nonzero `returncode`,
raise `AssertionError`; otherwise the subsequent import yields the module. -/
def import_library_fallback (returncode : Int) : InstallOutcome :=
  match runPipInstallCheckTrue returncode with
  | Except.error code => InstallOutcome.calledProcessError code
  | Except.ok completed =>
      if completed.returncode ≠ 0 then InstallOutcome.assertionError completed.returncode
      else InstallOutcome.imported

/-- Recogniser for the `AssertionError` outcome. -/
def isAssertionError : InstallOutcome → Bool
  | InstallOutcome.assertionError _ => true
  | _ => false

/-- Reading of the spec's rule 2 taken literally as the claim states it:
remove a leading two-character `"0x"` when both characters occur
consecutively at the start, otherwise leave the string unchanged. -/
def c3ClaimStrip (s : List Char) : List Char :=
  if s.take 2 = ['0', 'x'] then s.drop 2 else s

/-- Shift-operand computation as the claim states it: from `H` minus its
last three characters, remove one leading `"0x"`, then at most one further
leading `'0'`; if exactly one character remains and it is a decimal digit,
that character is the result, otherwise the unstripped string is. -/
def c4ClaimFirstTarget (H : List Char) : List Char :=
  let s := H.take (H.length - 3)
  let t := if s.take 2 = ['0', 'x'] then s.drop 2 else s
  let t := if t.take 1 = ['0'] then t.drop 1 else t
  if t.length = 1 ∧ (∀ c ∈ t, c.isDigit = true) then t else s

/-- Shift-operand computation as amended: from `H` minus its last three
characters, remove the entire maximal leading run of characters from the set
`\x7b'0', 'x'\x7d`; if exactly one character remains and it is a decimal
digit, that character is the result, otherwise the unstripped string is. -/
def c4AmendedFirstTarget (H : List Char) : List Char :=
  let s := H.take (H.length - 3)
  let t := s.dropWhile (fun c => c == '0' || c == 'x')
  if t.length = 1 ∧ (∀ c ∈ t, c.isDigit = true) then t else s

lemma pySliceIdx_zero (n : Nat) : pySliceIdx n 0 = 0 := by
  unfold pySliceIdx
  rw [if_neg (by omega)]
  simp

lemma pySliceIdx_neg1 (n : Nat) : pySliceIdx n (-1) = n - 1 := by
  unfold pySliceIdx
  rw [if_pos (by omega)]
  omega

lemma pySliceIdx_neg2 (n : Nat) : pySliceIdx n (-2) = n - 2 := by
  unfold pySliceIdx
  rw [if_pos (by omega)]
  omega

lemma pySliceIdx_neg3 (n : Nat) : pySliceIdx n (-3) = n - 3 := by
  unfold pySliceIdx
  rw [if_pos (by omega)]
  omega

lemma pySlice_zero_neg3 (s : List Char) : pySlice s 0 (-3) = s.take (s.length - 3) := by
  unfold pySlice
  rw [pySliceIdx_zero, pySliceIdx_neg3, List.drop_zero]

lemma pySlice_m3_m1 (pre : List Char) (a b c : Char) :
    pySlice (pre ++ [a, b, c]) (-3) (-1) = [a, b] := by
  unfold pySlice
  rw [pySliceIdx_neg1, pySliceIdx_neg3]
  have hl : (pre ++ [a, b, c]).length - 1 = (pre ++ [a, b]).length := by
    simp only [List.length_append, List.length_cons, List.length_nil]
    omega
  have hl3 : (pre ++ [a, b, c]).length - 3 = pre.length := by
    simp only [List.length_append, List.length_cons, List.length_nil]
    omega
  have h : pre ++ [a, b, c] = (pre ++ [a, b]) ++ [c] := by simp
  rw [hl, hl3, h, List.take_left]
  exact List.drop_left pre [a, b]

lemma pySlice_m3_m2 (pre : List Char) (a b c : Char) :
    pySlice (pre ++ [a, b, c]) (-3) (-2) = [a] := by
  unfold pySlice
  rw [pySliceIdx_neg2, pySliceIdx_neg3]
  have hl : (pre ++ [a, b, c]).length - 2 = (pre ++ [a]).length := by
    simp only [List.length_append, List.length_cons, List.length_nil]
    omega
  have hl3 : (pre ++ [a, b, c]).length - 3 = pre.length := by
    simp only [List.length_append, List.length_cons, List.length_nil]
    omega
  have h : pre ++ [a, b, c] = (pre ++ [a]) ++ [b, c] := by simp
  rw [hl, hl3, h, List.take_left]
  exact List.drop_left pre [a]

lemma pySliceFrom_m1 (pre : List Char) (a b c : Char) :
    pySliceFrom (pre ++ [a, b, c]) (-1) = [c] := by
  unfold pySliceFrom
  rw [pySliceIdx_neg1]
  have hl : (pre ++ [a, b, c]).length - 1 = (pre ++ [a, b]).length := by
    simp only [List.length_append, List.length_cons, List.length_nil]
    omega
  have h : pre ++ [a, b, c] = (pre ++ [a, b]) ++ [c] := by simp
  rw [hl, h]
  exact List.drop_left (pre ++ [a, b]) [c]

lemma pySliceFrom_m2 (pre : List Char) (a b c : Char) :
    pySliceFrom (pre ++ [a, b, c]) (-2) = [b, c] := by
  unfold pySliceFrom
  rw [pySliceIdx_neg2]
  have hl : (pre ++ [a, b, c]).length - 2 = (pre ++ [a]).length := by
    simp only [List.length_append, List.length_cons, List.length_nil]
    omega
  have h : pre ++ [a, b, c] = (pre ++ [a]) ++ [b, c] := by simp
  rw [hl, h]
  exact List.drop_left (pre ++ [a]) [b, c]

lemma pySliceFrom_m3 (pre : List Char) (a b c : Char) :
    pySliceFrom (pre ++ [a, b, c]) (-3) = [a, b, c] := by
  unfold pySliceFrom
  rw [pySliceIdx_neg3]
  have hl : (pre ++ [a, b, c]).length - 3 = pre.length := by
    simp only [List.length_append, List.length_cons, List.length_nil]
    omega
  rw [hl]
  exact List.drop_left pre [a, b, c]

lemma lstrip0x_head?_false :
    ∀ (s : List Char) (c : Char), (lstrip0x s).head? = some c → (c == '0' || c == 'x') = false := by
  intro s
  unfold lstrip0x
  induction s with
  | nil =>
      intro c h
      simp [List.dropWhile] at h
  | cons a t ih =>
      intro c h
      rw [List.dropWhile_cons] at h
      by_cases hp : (a == '0' || a == 'x') = true
      · rw [if_pos hp] at h
        exact ih c h
      · rw [if_neg hp] at h
        rw [List.head?_cons, Option.some.injEq] at h
        rw [← h]
        exact Bool.eq_false_iff.mpr hp

lemma lstrip0x_not_start_zero (s : List Char) : ¬((lstrip0x s).head? = some '0') := by
  intro h
  have h2 := lstrip0x_head?_false s '0' h
  exact absurd h2 (by decide)

lemma foldl_append_if_eq_filter_map {α β : Type} (cond : α → Bool) (f : α → β) :
    ∀ (l : List α) (acc : List β),
      l.foldl (fun acc i => if cond i then acc ++ [f i] else acc) acc =
        acc ++ (l.filter cond).map f := by
  intro l
  induction l with
  | nil =>
      intro acc
      simp
  | cons i t ih =>
      intro acc
      rw [List.foldl_cons, ih, List.filter_cons]
      by_cases h : cond i
      · simp [h]
      · simp [h]

/-- C6: the scenario of the spec: the hex value `0x88f0` decomposes into
shift operand `8` and offset operand `0x8f0`. -/
theorem c6_scenario_0x88f0 :
    decomposeOperands ['0', 'x', '8', '8', 'f', '0'] = (['8'], ['0', 'x', '8', 'f', '0']) := by
  decide

/-- C10: the `AssertionError` branch of `import_library` is unreachable:
whatever the pip exit code, the fallback never produces the
`AssertionError` outcome, because `check=True` already raises on every
nonzero exit code. -/
theorem c10_assertion_branch_unreachable (returncode : Int) :
    isAssertionError (import_library_fallback returncode) = false := by
  unfold import_library_fallback runPipInstallCheckTrue
  by_cases h : returncode = 0
  · subst h
    simp [isAssertionError]
  · simp [h, isAssertionError]

/-- C2, counterexample: on the malformed input `"0x"` (zero hex digits after
the prefix, fewer than 3 characters), the operand decomposition of `main`
proceeds and produces shift operand `""` and offset operand `"0x0x"`; no
input validation or `InvalidInputError` exists in the code. -/
theorem c2_counterexample :
    decomposeOperands ['0', 'x'] = ([], ['0', 'x', '0', 'x']) := by decide

/-- C2 as amended: the code performs no input validation; on an input with
fewer than 3 characters after the `0x` prefix it completes normally,
computing both operands from whatever characters are present. For `0x`
followed by exactly two hex digits `d1 d2`, it yields shift operand `"0"`
and offset operand `"0x" + "x" + d1 + d2`. -/
theorem c2_no_validation (d1 d2 : Char) (h1 : isHexDigitChar d1 = true)
    (h2 : isHexDigitChar d2 = true) :
    decomposeOperands ['0', 'x', d1, d2] = (['0'], ['0', 'x', 'x', d1, d2]) := rfl

/-- Witness for `c2_no_validation` at `d1 = 'a'`, `d2 = 'b'`. -/
theorem c2_no_validation_witness :
    isHexDigitChar 'a' = true ∧ isHexDigitChar 'b' = true ∧
      decomposeOperands ['0', 'x', 'a', 'b'] = (['0'], ['0', 'x', 'x', 'a', 'b']) :=
  ⟨by decide, by decide, c2_no_validation 'a' 'b' (by decide) (by decide)⟩

/-- C3, counterexample: for the input `"0x0123"` the shift operand slice is
`"0x0"`, and the code's `lstrip("0x")` turns it into the empty string,
removing three leading characters, whereas the claimed two-character strip
would give `"0"`. -/
theorem c3_counterexample :
    pySlice ['0', 'x', '0', '1', '2', '3'] 0 (-3) = ['0', 'x', '0'] ∧
      lstrip0x ['0', 'x', '0'] = [] ∧
      c3ClaimStrip ['0', 'x', '0'] = ['0'] := by decide

/-- C3 as amended: `stripped` equals `shiftOperand` with its entire maximal
leading run of characters from the set `\x7b'0', 'x'\x7d` removed (Python
`lstrip` semantics): the removed prefix consists only of such characters,
and the remainder does not start with one. -/
theorem c3_lstrip_strips_maximal_run (s : List Char) :
    s.takeWhile (fun c => c == '0' || c == 'x') ++ lstrip0x s = s ∧
      (s.takeWhile (fun c => c == '0' || c == 'x')).all (fun c => c == '0' || c == 'x') = true ∧
      (lstrip0x s).head?.all (fun c => !(c == '0' || c == 'x')) = true := by
  refine ⟨List.takeWhile_append_dropWhile _ s, ?_, ?_⟩
  · rw [List.all_eq_true]
    intro c hc
    exact @List.mem_takeWhile_imp Char (fun c => c == '0' || c == 'x') s c hc
  · cases hh : (lstrip0x s).head? with
    | none => rfl
    | some c =>
        have h2 := lstrip0x_head?_false s c hh
        simp only [Option.all_some, h2, Bool.not_false]

/-- C8: after `lstrip("0x")` the string can never start with `'0'`, so the
conditional drop of one further leading `'0'` (ppSearch.py line 132) never
fires, and the decomposer with that step removed computes the same shift
operand as the actual implementation on every input. -/
theorem c8_drop_step_redundant (H : List Char) :
    ((lstrip0x (pySlice H 0 (-3))).head? == some '0') = false ∧
      computeFirstTargetNoDrop H = computeFirstTarget H := by
  constructor
  · rw [beq_eq_false_iff_ne]
    exact lstrip0x_not_start_zero _
  · simp only [computeFirstTarget, computeFirstTargetNoDrop]
    rw [if_neg (lstrip0x_not_start_zero (pySlice H 0 (-3)))]

/-- C5: `search_patterns` returns exactly the pairs
`(output[i], output[i+1])` for the indices `i` from `0` to `length - 2`
inclusive at which `pattern1` matches line `i` and `pattern2` matches line
`i + 1`, in ascending order of `i`, with no deduplication: it equals the
in-order filter of the index range followed by pair formation. -/
theorem c5_search_patterns_exact (output : List String) (pattern1 pattern2 : String → Bool) :
    search_patterns output pattern1 pattern2 =
      ((List.range (output.length - 1)).filter
          (fun i => pattern1 (output.getD i "") && pattern2 (output.getD (i + 1) ""))).map
        (fun i => (output.getD i "", output.getD (i + 1) "")) := by
  unfold search_patterns
  exact (foldl_append_if_eq_filter_map
      (fun i => pattern1 (output.getD i "") && pattern2 (output.getD (i + 1) ""))
      (fun i => (output.getD i "", output.getD (i + 1) ""))
      (List.range (output.length - 1)) []).trans (List.nil_append _)

/-- C7: whenever no adjacent pair of lines satisfies both patterns (which
holds vacuously for sequences of length 0 or 1), `search_patterns` returns
the empty list; the iteration over `range(length - 1)` never accesses an
index out of bounds. -/
theorem c7_no_match_empty (output : List String) (pattern1 pattern2 : String → Bool)
    (h : ∀ i, i + 1 < output.length →
      pattern1 (output.getD i "") = false ∨ pattern2 (output.getD (i + 1) "") = false) :
    search_patterns output pattern1 pattern2 = [] := by
  unfold search_patterns
  rw [foldl_append_if_eq_filter_map
      (fun i => pattern1 (output.getD i "") && pattern2 (output.getD (i + 1) ""))
      (fun i => (output.getD i "", output.getD (i + 1) ""))
      (List.range (output.length - 1)) []]
  have hf : (List.range (output.length - 1)).filter
      (fun i => pattern1 (output.getD i "") && pattern2 (output.getD (i + 1) "")) = [] := by
    rw [List.filter_eq_nil_iff]
    intro i hi
    rw [List.mem_range] at hi
    intro hcond
    rcases h i (by omega) with hp | hp
    · rw [hp] at hcond
      simp at hcond
    · rw [hp] at hcond
      simp at hcond
  rw [hf]
  rfl

/-- Witness for `c7_no_match_empty`: a two-line sequence whose first pattern
matches nowhere yields no matches. -/
theorem c7_no_match_empty_witness :
    search_patterns ["a", "b"] (fun _ => false) (fun _ => true) = [] :=
  c7_no_match_empty ["a", "b"] (fun _ => false) (fun _ => true) (fun _ _ => Or.inl rfl)

/-- C9: on any input of length at most 3 the decomposer completes, the shift
operand is the empty string (the single-digit replacement does not fire),
and the offset operand is computed from the characters the input has: the
usual three-way split for length exactly 3, and `0x` prepended to the whole
input for length at most 2. -/
theorem c9_short_operands (H : List Char) (h : H.length ≤ 3) :
    computeFirstTarget H = [] ∧
      computeSecondTarget H =
        (if H.length = 3 then
          (if H.take 2 = ['0', '0'] then H.drop 2
           else if H.take 1 = ['0'] then '0' :: 'x' :: H.drop 1
           else '0' :: 'x' :: H)
         else '0' :: 'x' :: H) := by
  rcases H with _ | ⟨a, _ | ⟨b, _ | ⟨c, _ | ⟨d, t⟩⟩⟩⟩
  · exact ⟨rfl, rfl⟩
  · refine ⟨rfl, ?_⟩
    have e1 : pySlice [a] (-3) (-1) = [] := rfl
    have e2 : pySlice [a] (-3) (-2) = [] := rfl
    have e3 : pySliceFrom [a] (-3) = [a] := rfl
    have h1 : ¬(([] : List Char) = ['0', '0']) := by simp
    have h2 : ¬(([] : List Char) = ['0']) := by simp
    have h3 : ¬(([a] : List Char).length = 3) := by simp
    unfold computeSecondTarget
    rw [e1, e2, e3, if_neg h1, if_neg h2, if_neg h3]
    rfl
  · refine ⟨rfl, ?_⟩
    have e1 : pySlice [a, b] (-3) (-1) = [a] := rfl
    have e2 : pySlice [a, b] (-3) (-2) = [] := rfl
    have e3 : pySliceFrom [a, b] (-3) = [a, b] := rfl
    have h1 : ¬(([a] : List Char) = ['0', '0']) := by simp
    have h2 : ¬(([] : List Char) = ['0']) := by simp
    have h3 : ¬(([a, b] : List Char).length = 3) := by simp
    unfold computeSecondTarget
    rw [e1, e2, e3, if_neg h1, if_neg h2, if_neg h3]
    rfl
  · refine ⟨rfl, ?_⟩
    have e1 : pySlice [a, b, c] (-3) (-1) = [a, b] := rfl
    have e2 : pySlice [a, b, c] (-3) (-2) = [a] := rfl
    have e3 : pySliceFrom [a, b, c] (-1) = [c] := rfl
    have e4 : pySliceFrom [a, b, c] (-2) = [b, c] := rfl
    have e5 : pySliceFrom [a, b, c] (-3) = [a, b, c] := rfl
    have h3 : (([a, b, c] : List Char).length = 3) := by simp
    unfold computeSecondTarget
    rw [e1, e2, e3, e4, e5, if_pos h3]
    rfl
  · exfalso
    simp only [List.length_cons] at h
    omega

/-- Witness for `c9_short_operands` at the three-character input `"0f0"`. -/
theorem c9_short_operands_witness :
    computeFirstTarget ['0', 'f', '0'] = [] ∧
      computeSecondTarget ['0', 'f', '0'] =
        (if (['0', 'f', '0'] : List Char).length = 3 then
          (if (['0', 'f', '0'] : List Char).take 2 = ['0', '0'] then
            (['0', 'f', '0'] : List Char).drop 2
           else if (['0', 'f', '0'] : List Char).take 1 = ['0'] then
            '0' :: 'x' :: (['0', 'f', '0'] : List Char).drop 1
           else '0' :: 'x' :: ['0', 'f', '0'])
         else '0' :: 'x' :: ['0', 'f', '0']) :=
  c9_short_operands ['0', 'f', '0'] (by decide)

/-- C1: for every well-formed hex input of length at least 4, writing its
last three characters as `c1 c2 c3`, the offset operand is `c3` alone when
`c1 c2` is `00`, else `0x` followed by `c2 c3` when `c1` is `0`, else `0x`
followed by `c1 c2 c3`. -/
theorem c1_offset_operand (H pre : List Char) (c1 c2 c3 : Char)
    (hsplit : H = pre ++ [c1, c2, c3]) (hlen : 4 ≤ H.length)
    (hform : isHexLiteral H = true) :
    computeSecondTarget H =
      (if c1 = '0' ∧ c2 = '0' then [c3]
       else if c1 = '0' then ['0', 'x', c2, c3]
       else ['0', 'x', c1, c2, c3]) := by
  subst hsplit
  unfold computeSecondTarget
  rw [pySlice_m3_m1, pySlice_m3_m2, pySliceFrom_m1, pySliceFrom_m2, pySliceFrom_m3]
  have hiff : ([c1, c2] = (['0', '0'] : List Char)) ↔ (c1 = '0' ∧ c2 = '0') := by simp
  by_cases h1 : c1 = '0'
  · by_cases h2 : c2 = '0'
    · rw [if_pos (hiff.mpr ⟨h1, h2⟩), if_pos ⟨h1, h2⟩]
    · have hn : ¬([c1, c2] = (['0', '0'] : List Char)) := fun hh => h2 (hiff.mp hh).2
      have hn' : ¬(c1 = '0' ∧ c2 = '0') := fun hh => h2 hh.2
      have h1' : ([c1] : List Char) = ['0'] := by rw [h1]
      rw [if_neg hn, if_neg hn', if_pos h1', if_pos h1]
      rfl
  · have hn : ¬([c1, c2] = (['0', '0'] : List Char)) := fun hh => h1 (hiff.mp hh).1
    have hn' : ¬(c1 = '0' ∧ c2 = '0') := fun hh => h1 hh.1
    have hn2 : ¬(([c1] : List Char) = ['0']) := by simpa using h1
    rw [if_neg hn, if_neg hn', if_neg hn2, if_neg h1]
    rfl

/-- Witness for `c1_offset_operand` at the input `"0x8f0"`. -/
theorem c1_offset_operand_witness :
    computeSecondTarget ['0', 'x', '8', 'f', '0'] =
      (if ('8' : Char) = '0' ∧ ('f' : Char) = '0' then ['0']
       else if ('8' : Char) = '0' then ['0', 'x', 'f', '0']
       else ['0', 'x', '8', 'f', '0']) :=
  c1_offset_operand ['0', 'x', '8', 'f', '0'] ['0', 'x'] '8' 'f' '0' rfl (by decide) (by decide)

lemma lstrip0x_eq_dropWhile (s : List Char) :
    s.dropWhile (fun c => c == '0' || c == 'x') = lstrip0x s := rfl

lemma hexLiteral_mem (H : List Char) (hform : isHexLiteral H = true) :
    ∀ c ∈ H, c = 'x' ∨ isHexDigitChar c = true := by
  unfold isHexLiteral at hform
  rw [Bool.and_eq_true, beq_iff_eq, List.all_eq_true] at hform
  obtain ⟨h1, h2⟩ := hform
  intro c hc
  rw [← List.take_append_drop 2 H] at hc
  rcases List.mem_append.mp hc with hm | hm
  · rw [h1] at hm
    rcases (by simpa using hm : c = '0' ∨ c = 'x') with h | h
    · subst h
      exact Or.inr (by decide)
    · exact Or.inl h
  · exact Or.inr (h2 c hm)

lemma singleton_after_strip_digit_iff (H : List Char) (hform : isHexLiteral H = true)
    (c : Char) (hc : lstrip0x (H.take (H.length - 3)) = [c]) :
    (c.isDigit = true) ↔ ¬([c] ∈ values) := by
  have h0 : c ∈ lstrip0x (H.take (H.length - 3)) := by
    rw [hc]
    exact List.mem_singleton_self c
  have h1 : c ∈ H.take (H.length - 3) := (List.dropWhile_sublist _).subset h0
  have h2 : c ∈ H := List.take_subset _ _ h1
  have h3 := hexLiteral_mem H hform c h2
  have h4 : (c == '0' || c == 'x') = false := by
    apply lstrip0x_head?_false (H.take (H.length - 3))
    rw [hc]
    rfl
  have h4x : c ≠ 'x' := by
    intro he
    subst he
    simp at h4
  have hd : isHexDigitChar c = true := by
    rcases h3 with h | h
    · exact absurd h h4x
    · exact h
  unfold isHexDigitChar at hd
  simp only [Bool.or_eq_true, beq_iff_eq] at hd
  constructor
  · intro hdig hmem
    have hmem' : c = 'a' ∨ c = 'b' ∨ c = 'c' ∨ c = 'd' ∨ c = 'e' ∨ c = 'f' := by
      simpa [values] using hmem
    rcases hmem' with h | h | h | h | h | h <;>
      (subst h; exact absurd hdig (by decide))
  · intro hmem
    rcases hd with ((((((h | h) | h) | h) | h) | h) | h)
    · exact h
    all_goals (subst h; exact absurd (by decide) hmem)

/-- C4, counterexample: the well-formed input `"0x005123"` has shift operand
slice `"0x005"`; the code collapses it to the bare digit `"5"` (Python
`lstrip("0x")` removes all three leading characters `0`, `x`, `0`), whereas
the claimed rule (strip one `"0x"`, then at most one leading `'0'`) leaves
two characters `"05"` and therefore predicts the prefixed form `"0x005"`. -/
theorem c4_counterexample :
    isHexLiteral ['0', 'x', '0', '0', '5', '1', '2', '3'] = true ∧
      computeFirstTarget ['0', 'x', '0', '0', '5', '1', '2', '3'] = ['5'] ∧
      c4ClaimFirstTarget ['0', 'x', '0', '0', '5', '1', '2', '3'] = ['0', 'x', '0', '0', '5'] := by
  decide

/-- C4 as amended: for every well-formed hex input, the shift operand
collapses to a bare single digit exactly when, after removing the entire
maximal leading run of characters from the set `\x7b'0', 'x'\x7d` from the
input minus its last three characters, exactly one character remains and it
is a decimal digit; otherwise the shift operand keeps its original form. -/
theorem c4_collapse_iff (H : List Char) (hform : isHexLiteral H = true) :
    computeFirstTarget H = c4AmendedFirstTarget H := by
  simp only [computeFirstTarget, c4AmendedFirstTarget]
  rw [pySlice_zero_neg3, if_neg (lstrip0x_not_start_zero (H.take (H.length - 3))),
    lstrip0x_eq_dropWhile]
  cases hd : lstrip0x (H.take (H.length - 3)) with
  | nil =>
      have hlen : ¬((([] : List Char)).length = 1) := by simp
      rw [if_neg (fun hh => hlen hh.1), if_neg (fun hh => hlen hh.1)]
  | cons c rest =>
      cases rest with
      | nil =>
          have hiff := singleton_after_strip_digit_iff H hform c hd
          by_cases hdig : c.isDigit = true
          · have ha : ∀ x ∈ ([c] : List Char), x.isDigit = true := by
              intro x hx
              rw [List.mem_singleton] at hx
              rw [hx]
              exact hdig
            rw [if_pos ⟨rfl, hiff.mp hdig⟩, if_pos ⟨rfl, ha⟩]
          · have hmem : [c] ∈ values := by
              by_contra hn
              exact hdig (hiff.mpr hn)
            have hb : ¬((([c] : List Char)).length = 1 ∧ ([c] : List Char) ∉ values) :=
              fun hh => hh.2 hmem
            have hb2 : ¬((([c] : List Char)).length = 1 ∧
                ∀ x ∈ ([c] : List Char), x.isDigit = true) :=
              fun hh => hdig (hh.2 c (List.mem_singleton_self c))
            rw [if_neg hb, if_neg hb2]
      | cons c2 rest2 =>
          have hlen : ¬((c :: c2 :: rest2).length = 1) := by
            simp only [List.length_cons]
            omega
          rw [if_neg (fun hh => hlen hh.1), if_neg (fun hh => hlen hh.1)]

/-- Witness for `c4_collapse_iff` at the input `"0x005123"`. -/
theorem c4_collapse_iff_witness :
    isHexLiteral ['0', 'x', '0', '0', '5', '1', '2', '3'] = true ∧
      computeFirstTarget ['0', 'x', '0', '0', '5', '1', '2', '3'] =
        c4AmendedFirstTarget ['0', 'x', '0', '0', '5', '1', '2', '3'] :=
  ⟨by decide, c4_collapse_iff _ (by decide)⟩

end PpSearch
